import Mathlib

set_option maxRecDepth 10000

/-
Verification of the LZMA2 framing layer of lzma-rs (src/decode/lzma2.rs),
shallowly embedded over byte-list streams.  An input stream is a `List Nat`
of byte values; the `&mut` reader/decoder parameters of the Rust code become
explicit state passing, and every function returns the decoder after the
call, the remaining stream, and `none` on success or the reported error.
-/

/-- Errors produced by the decoder.  The source reports every failure as
`error::Error::LZMAError(String)` (the formatted I/O detail appended in the
source messages is elided); `unreachableArm` models the `unreachable!()`
panic in the reset-level match of `parse_lzma`, and `fuelExhausted` is an
artefact of the fuel parameter driving `decodeLoop`, never returned when the
fuel is at least the input length plus one. -/
inductive Error where
  | lzmaError (msg : String)
  | unreachableArm
  | fuelExhausted
  deriving DecidableEq

/-- Modelled from the spec: the accumulating dictionary buffer
`lzbuffer::LZAccumBuffer` (decode/lzbuffer.rs, not among the exhibited
sources; spec section 4.3).  `sink` holds the bytes already flushed to the
external output stream, `buf` the history accumulated since the last
flush. -/
structure LZAccumBuffer where
  sink : List Nat
  buf : List Nat
  deriving DecidableEq

/-- Modelled from the spec: `reset` discards the back-reference history
(spec 4.3); the accumulated bytes are first flushed to the sink, as the
round-trip property of spec section 8 requires the overall output to be
preserved across dictionary resets. -/
def LZAccumBuffer.reset (b : LZAccumBuffer) : LZAccumBuffer :=
  { sink := b.sink ++ b.buf, buf := [] }

/-- Modelled from the spec: append literal bytes to the history
(spec 4.3). -/
def LZAccumBuffer.append_bytes (b : LZAccumBuffer) (bytes : List Nat) : LZAccumBuffer :=
  { b with buf := b.buf ++ bytes }

/-- Modelled from the spec: `finish` flushes the remaining buffered bytes to
the external sink (spec 4.3); the result is the complete byte sequence the
sink has received. -/
def LZAccumBuffer.finish (b : LZAccumBuffer) : List Nat :=
  b.sink ++ b.buf

/-- Modelled from the spec: the LZMA `DecoderState` (decode/decoder.rs, not
among the exhibited sources; spec sections 3 and 4.2).  `state` is the
12-state automaton value and `reps` the four rep distances.  The adaptive
probability counters are not represented: the modelled chunk processor
(`DecoderState.process`) abstracts symbol decoding, and no claim observes
them. -/
structure DecoderState where
  output : LZAccumBuffer
  lc : Nat
  lp : Nat
  pb : Nat
  state : Nat
  reps : List Nat
  unpacked_size : Option Nat
  deriving DecidableEq

/-- Modelled from the spec: `reset_state(lc, lp, pb)` installs the resolved
properties, reinitialises the probability model to neutral (not
represented), resets the automaton state to its initial value and clears
the rep-distance history (spec 4.2). -/
def DecoderState.reset_state (d : DecoderState) (lc lp pb : Nat) : DecoderState :=
  { d with lc := lc, lp := lp, pb := pb, state := 0, reps := [0, 0, 0, 0] }

/-- Modelled from the spec: set the remaining-bytes target for the next
chunk-processing call (spec 4.2). -/
def DecoderState.set_unpacked_size (d : DecoderState) (n : Option Nat) : DecoderState :=
  { d with unpacked_size := n }

/-- Modelled from the spec: `DecoderState::process` decodes symbols from the
bounded chunk view until exactly `unpacked_size` output bytes have been
produced (spec 4.1 and 4.2), consuming the chunk's packed bytes (spec 3:
the packed size counts the input bytes consumed by the chunk's bitstream).
The symbol-level LZMA decode loop lives outside the exhibited sources and
no claim concerns the decoded byte values, so they are abstracted as zero
bytes appended to the dictionary buffer. -/
def DecoderState.process (d : DecoderState) (payload : List Nat) : DecoderState :=
  let _ := payload
  { d with
    output := d.output.append_bytes (List.replicate (d.unpacked_size.getD 0) 0),
    unpacked_size := some 0 }

/-- Modelled from the spec: `decoder::new_accum(accum, 0, 0, 0, None)` builds
the initial decoder state over an empty accumulating buffer (spec 3: created
once per stream with properties (0, 0, 0) and no declared unpacked size). -/
def new_accum : DecoderState :=
  { output := { sink := [], buf := [] }, lc := 0, lp := 0, pb := 0,
    state := 0, reps := [0, 0, 0, 0], unpacked_size := none }

/-- Reset-level mapping of `parse_lzma` (lzma2.rs lines 62 to 84): the two-bit
reset level maps to the triple of the dictionary, state and properties reset
flags; `none` models the `unreachable!()` fallback arm. -/
def resetLevelFlags : Nat → Option (Bool × Bool × Bool)
  | 0 => some (false, false, false)
  | 1 => some (false, true, false)
  | 2 => some (false, true, false)
  | 3 => some (true, true, true)
  | _ => none

/-- Unpacked size of a compressed chunk (lzma2.rs line 91): the five low bits
of the status byte shifted left sixteen, or-ed with the big-endian size
field, plus one. -/
def computeUnpackedSize (status w : Nat) : Nat :=
  (((status &&& 0x1F) <<< 16) ||| w) + 1

/-- Packed size of a compressed chunk (lzma2.rs line 98): the big-endian size
field plus one. -/
def computePackedSize (w : Nat) : Nat :=
  w + 1

/-- Property-byte decoding of `parse_lzma` (lzma2.rs lines 125 to 143):
reject a byte of 225 or more, then split it into literal-context,
literal-position and position bits, and reject lc + lp above 4. -/
def decodeProps (props : Nat) : Except Error (Nat × Nat × Nat) :=
  let pb := props
  if pb ≥ 225 then
    .error (.lzmaError "LZMA2 invalid properties: must be < 225")
  else
    let lc := pb % 9
    let pb := pb / 9
    let lp := pb % 5
    let pb := pb / 5
    if lc + lp > 4 then
      .error (.lzmaError "LZMA2 invalid properties: lc + lp must be <= 4")
    else
      .ok (lc, lp, pb)

/-- Tail of `parse_lzma` (lzma2.rs lines 155 to 165): set the unpacked-size
target, cap the stream to `packed` bytes (the SubBufRead bounded view),
build the range decoder over that view — consuming its five initialisation
bytes, and failing when the view is shorter than five — and process the
chunk. -/
def continueChunk (d : DecoderState) (input : List Nat) (unpacked packed : Nat) :
    DecoderState × List Nat × Option Error :=
  let d := d.set_unpacked_size (some unpacked)
  let view := input.take packed
  if view.length < 5 then
    (d, input, some (.lzmaError "LZMA stream too short"))
  else
    (d.process (view.drop 5), input.drop packed, none)

/-- `parse_lzma` (lzma2.rs lines 43 to 166) over a byte-list stream: check
the high bit of the status byte, derive the reset flags from the two-bit
reset level, read the big-endian unpacked-size and packed-size fields,
apply the dictionary reset, resolve the properties (reading a property byte
exactly when the level requests new properties) and reset the decoder
state when asked, then hand over to the range-decoding tail. -/
def parse_lzma (d : DecoderState) (input : List Nat) (status : Nat) :
    DecoderState × List Nat × Option Error :=
  if status &&& 0x80 = 0 then
    (d, input, some (.lzmaError "LZMA2 invalid status: must be 0, 1, 2 or >= 128"))
  else
    match resetLevelFlags ((status >>> 5) &&& 0x3) with
    | none => (d, input, some .unreachableArm)
    | some (reset_dict, rstate, rprops) =>
      match input with
      | b1 :: b2 :: rest₁ =>
        match rest₁ with
        | b3 :: b4 :: rest =>
          let unpacked := computeUnpackedSize status ((b1 <<< 8) ||| b2)
          let packed := computePackedSize ((b3 <<< 8) ||| b4)
          let d := if reset_dict then { d with output := d.output.reset } else d
          if rstate then
            if rprops then
              match rest with
              | props :: rest₂ =>
                match decodeProps props with
                | .error e => (d, rest₂, some e)
                | .ok (lc, lp, pb) =>
                  continueChunk (d.reset_state lc lp pb) rest₂ unpacked packed
              | [] => (d, rest, some (.lzmaError "LZMA2 expected new properties"))
            else
              continueChunk (d.reset_state d.lc d.lp d.pb) rest unpacked packed
          else
            continueChunk d rest unpacked packed
        | _ => (d, rest₁, some (.lzmaError "LZMA2 expected packed size"))
      | _ => (d, input, some (.lzmaError "LZMA2 expected unpacked size"))

/-- `parse_uncompressed` (lzma2.rs lines 168 to 205) over a byte-list
stream: read the big-endian size field plus one, reset the dictionary when
asked, then move exactly `unpacked` raw bytes from the stream into the
buffer, failing when the stream holds fewer. -/
def parse_uncompressed (d : DecoderState) (input : List Nat) (reset_dict : Bool) :
    DecoderState × List Nat × Option Error :=
  match input with
  | b1 :: b2 :: rest =>
    let unpacked := ((b1 <<< 8) ||| b2) + 1
    let d := if reset_dict then { d with output := d.output.reset } else d
    if unpacked ≤ rest.length then
      ({ d with output := d.output.append_bytes (rest.take unpacked) },
       rest.drop unpacked, none)
    else
      (d, rest, some (.lzmaError "LZMA2 expected uncompressed bytes"))
  | _ => (d, input, some (.lzmaError "LZMA2 expected unpacked size"))

/-- Loop of `decode_stream` (lzma2.rs lines 18 to 37), driven by explicit
fuel: each iteration reads one status byte and dispatches on it; the loop
ends successfully exactly when the byte 0 is read. -/
def decodeLoop : Nat → DecoderState → List Nat → DecoderState × List Nat × Option Error
  | 0, d, input => (d, input, some .fuelExhausted)
  | fuel + 1, d, input =>
    match input with
    | [] => (d, input, some (.lzmaError "LZMA2 expected new status"))
    | status :: rest =>
      if status = 0 then
        (d, rest, none)
      else if status = 1 then
        match parse_uncompressed d rest true with
        | (d₁, rest₁, none) => decodeLoop fuel d₁ rest₁
        | (d₁, rest₁, some e) => (d₁, rest₁, some e)
      else if status = 2 then
        match parse_uncompressed d rest false with
        | (d₁, rest₁, none) => decodeLoop fuel d₁ rest₁
        | (d₁, rest₁, some e) => (d₁, rest₁, some e)
      else
        match parse_lzma d rest status with
        | (d₁, rest₁, none) => decodeLoop fuel d₁ rest₁
        | (d₁, rest₁, some e) => (d₁, rest₁, some e)

/-- `decode_stream` (lzma2.rs lines 10 to 41): run the chunk loop from the
fresh decoder state (every iteration consumes at least the status byte, so
a fuel of the input length plus one never runs out) and, on success, flush
the buffer to the sink exactly once, returning the complete output. -/
def decode_stream (input : List Nat) : Except Error (List Nat) :=
  match decodeLoop (input.length + 1) new_accum input with
  | (d, _, none) => .ok d.output.finish
  | (_, _, some e) => .error e

/-! Helper lemmas about the embedded functions. -/

lemma and128_eq_zero (s : Nat) (h : s ≤ 127) : s &&& 0x80 = 0 :=
  (by decide : ∀ t, t < 128 → t &&& 0x80 = 0) s (Nat.lt_succ_of_le h)

lemma and128_ne_zero (s : Nat) (h₁ : 128 ≤ s) (h₂ : s < 256) : s &&& 0x80 ≠ 0 :=
  (by decide : ∀ t, t < 256 → 128 ≤ t → t &&& 0x80 ≠ 0) s h₂ h₁

lemma resetLevel_lt_four (status : Nat) : (status >>> 5) &&& 0x3 < 4 :=
  Nat.lt_succ_of_le Nat.and_le_right

lemma continueChunk_short (d : DecoderState) (r : List Nat) (U P : Nat)
    (h : (r.take P).length < 5) :
    continueChunk d r U P =
      (d.set_unpacked_size (some U), r, some (.lzmaError "LZMA stream too short")) := by
  simp only [continueChunk]
  rw [if_pos h]

lemma continueChunk_ok (d : DecoderState) (r : List Nat) (U P : Nat)
    (h : ¬(r.take P).length < 5) :
    continueChunk d r U P =
      ((d.set_unpacked_size (some U)).process ((r.take P).drop 5), r.drop P, none) := by
  simp only [continueChunk]
  rw [if_neg h]

lemma parse_lzma_level0 (d : DecoderState) (b1 b2 b3 b4 : Nat) (rest : List Nat)
    (status : Nat) (h80 : status &&& 0x80 ≠ 0) (hl : (status >>> 5) &&& 0x3 = 0) :
    parse_lzma d (b1 :: b2 :: b3 :: b4 :: rest) status =
      continueChunk d rest (computeUnpackedSize status ((b1 <<< 8) ||| b2))
        (computePackedSize ((b3 <<< 8) ||| b4)) := by
  simp [parse_lzma, h80, hl, resetLevelFlags]

lemma parse_lzma_state_reset (d : DecoderState) (b1 b2 b3 b4 : Nat) (rest : List Nat)
    (status : Nat) (h80 : status &&& 0x80 ≠ 0)
    (hfl : resetLevelFlags ((status >>> 5) &&& 0x3) = some (false, true, false)) :
    parse_lzma d (b1 :: b2 :: b3 :: b4 :: rest) status =
      continueChunk (d.reset_state d.lc d.lp d.pb) rest
        (computeUnpackedSize status ((b1 <<< 8) ||| b2))
        (computePackedSize ((b3 <<< 8) ||| b4)) := by
  simp [parse_lzma, h80, hfl]

lemma parse_lzma_level3_ok (d : DecoderState) (b1 b2 b3 b4 p : Nat) (rest : List Nat)
    (status lc lp pb : Nat) (h80 : status &&& 0x80 ≠ 0)
    (hl : (status >>> 5) &&& 0x3 = 3) (hp : decodeProps p = .ok (lc, lp, pb)) :
    parse_lzma d (b1 :: b2 :: b3 :: b4 :: p :: rest) status =
      continueChunk (({ d with output := d.output.reset }).reset_state lc lp pb) rest
        (computeUnpackedSize status ((b1 <<< 8) ||| b2))
        (computePackedSize ((b3 <<< 8) ||| b4)) := by
  simp [parse_lzma, h80, hl, resetLevelFlags, hp]

lemma parse_lzma_level3_err (d : DecoderState) (b1 b2 b3 b4 p : Nat) (rest : List Nat)
    (status : Nat) (e : Error) (h80 : status &&& 0x80 ≠ 0)
    (hl : (status >>> 5) &&& 0x3 = 3) (hp : decodeProps p = .error e) :
    parse_lzma d (b1 :: b2 :: b3 :: b4 :: p :: rest) status =
      ({ d with output := d.output.reset }, rest, some e) := by
  simp [parse_lzma, h80, hl, resetLevelFlags, hp]

lemma decodeProps_error_msg (p : Nat) (e : Error) (h : decodeProps p = Except.error e) :
    ∃ msg, e = Error.lzmaError msg := by
  simp only [decodeProps] at h
  split at h
  · exact ⟨_, (Except.error.inj h).symm⟩
  · split at h
    · exact ⟨_, (Except.error.inj h).symm⟩
    · exact Except.noConfusion h

lemma continueChunk_suffix (d : DecoderState) (r : List Nat) (U P : Nat) :
    ∃ k, (continueChunk d r U P).2.1 = r.drop k := by
  by_cases h : (r.take P).length < 5
  · exact ⟨0, by rw [continueChunk_short d r U P h]; rfl⟩
  · exact ⟨P, by rw [continueChunk_ok d r U P h]⟩

lemma parse_uncompressed_suffix (d : DecoderState) (input : List Nat) (rd : Bool) :
    ∃ k, (parse_uncompressed d input rd).2.1 = input.drop k := by
  match input with
  | [] => exact ⟨0, rfl⟩
  | [b1] => exact ⟨0, rfl⟩
  | b1 :: b2 :: rest =>
    by_cases h : ((b1 <<< 8) ||| b2) + 1 ≤ rest.length
    · refine ⟨((b1 <<< 8) ||| b2) + 1 + 2, ?_⟩
      simp only [parse_uncompressed]
      rw [if_pos h]
      rfl
    · refine ⟨2, ?_⟩
      simp only [parse_uncompressed]
      rw [if_neg h]
      rfl

lemma parse_lzma_suffix (d : DecoderState) (input : List Nat) (status : Nat) :
    ∃ k, (parse_lzma d input status).2.1 = input.drop k := by
  by_cases h80 : status &&& 0x80 = 0
  · exact ⟨0, by simp [parse_lzma, h80]⟩
  · match hfl : resetLevelFlags ((status >>> 5) &&& 0x3) with
    | none => exact ⟨0, by simp [parse_lzma, h80, hfl]⟩
    | some (rdict, rstate, rprops) =>
      match input with
      | [] => exact ⟨0, by simp [parse_lzma, h80, hfl]⟩
      | [b1] => exact ⟨0, by simp [parse_lzma, h80, hfl]⟩
      | [b1, b2] => exact ⟨2, by simp [parse_lzma, h80, hfl]⟩
      | [b1, b2, b3] => exact ⟨2, by simp [parse_lzma, h80, hfl]⟩
      | b1 :: b2 :: b3 :: b4 :: rest =>
        match rstate, rprops with
        | false, _ =>
          obtain ⟨j, hj⟩ := continueChunk_suffix
            (if rdict then { d with output := d.output.reset } else d) rest
            (computeUnpackedSize status ((b1 <<< 8) ||| b2))
            (computePackedSize ((b3 <<< 8) ||| b4))
          exact ⟨j + 4, by simp [parse_lzma, h80, hfl]; rw [hj]⟩
        | true, false =>
          obtain ⟨j, hj⟩ := continueChunk_suffix
            ((if rdict then { d with output := d.output.reset } else d).reset_state
              (if rdict then { d with output := d.output.reset } else d).lc
              (if rdict then { d with output := d.output.reset } else d).lp
              (if rdict then { d with output := d.output.reset } else d).pb) rest
            (computeUnpackedSize status ((b1 <<< 8) ||| b2))
            (computePackedSize ((b3 <<< 8) ||| b4))
          exact ⟨j + 4, by simp [parse_lzma, h80, hfl]; rw [hj]⟩
        | true, true =>
          match rest with
          | [] => exact ⟨4, by simp [parse_lzma, h80, hfl]⟩
          | p :: rest₂ =>
            match hp : decodeProps p with
            | .error e => exact ⟨5, by simp [parse_lzma, h80, hfl, hp]⟩
            | .ok (lc, lp, pb) =>
              obtain ⟨j, hj⟩ := continueChunk_suffix
                ((if rdict then { d with output := d.output.reset } else d).reset_state
                  lc lp pb) rest₂
                (computeUnpackedSize status ((b1 <<< 8) ||| b2))
                (computePackedSize ((b3 <<< 8) ||| b4))
              exact ⟨j + 5, by simp [parse_lzma, h80, hfl, hp]; rw [hj]⟩

lemma decodeLoop_none_split (fuel : Nat) :
    ∀ (d : DecoderState) (input : List Nat) (d₂ : DecoderState) (rest : List Nat),
      decodeLoop fuel d input = (d₂, rest, none) → ∃ pre, input = pre ++ 0 :: rest := by
  induction fuel with
  | zero =>
    intro d input d₂ rest h
    simp [decodeLoop] at h
  | succ fuel ih =>
    intro d input d₂ rest h
    match input with
    | [] => simp [decodeLoop] at h
    | status :: r =>
      by_cases h0 : status = 0
      · subst h0
        simp [decodeLoop] at h
        exact ⟨[], by rw [h.2]; rfl⟩
      · by_cases h1 : status = 1
        · subst h1
          simp only [decodeLoop] at h
          norm_num at h
          rcases hp : parse_uncompressed d r true with ⟨d₁, r₁, oe⟩
          rw [hp] at h
          rcases oe with _ | e
          · have h₂ : decodeLoop fuel d₁ r₁ = (d₂, rest, none) := h
            obtain ⟨pre₁, hpre⟩ := ih d₁ r₁ d₂ rest h₂
            obtain ⟨k, hk⟩ := parse_uncompressed_suffix d r true
            rw [hp] at hk
            have hk₂ : r₁ = List.drop k r := hk
            refine ⟨1 :: (r.take k ++ pre₁), ?_⟩
            calc (1 : Nat) :: r
                = 1 :: (r.take k ++ r.drop k) := by rw [List.take_append_drop]
              _ = 1 :: (r.take k ++ (pre₁ ++ 0 :: rest)) := by rw [← hk₂, hpre]
              _ = (1 :: (r.take k ++ pre₁)) ++ 0 :: rest := by simp
          · have h₂ : (d₁, r₁, some e) = (d₂, rest, (none : Option Error)) := h
            simp at h₂
        · by_cases h2 : status = 2
          · subst h2
            simp only [decodeLoop] at h
            norm_num at h
            rcases hp : parse_uncompressed d r false with ⟨d₁, r₁, oe⟩
            rw [hp] at h
            rcases oe with _ | e
            · have h₂ : decodeLoop fuel d₁ r₁ = (d₂, rest, none) := h
              obtain ⟨pre₁, hpre⟩ := ih d₁ r₁ d₂ rest h₂
              obtain ⟨k, hk⟩ := parse_uncompressed_suffix d r false
              rw [hp] at hk
              have hk₂ : r₁ = List.drop k r := hk
              refine ⟨2 :: (r.take k ++ pre₁), ?_⟩
              calc (2 : Nat) :: r
                  = 2 :: (r.take k ++ r.drop k) := by rw [List.take_append_drop]
                _ = 2 :: (r.take k ++ (pre₁ ++ 0 :: rest)) := by rw [← hk₂, hpre]
                _ = (2 :: (r.take k ++ pre₁)) ++ 0 :: rest := by simp
            · have h₂ : (d₁, r₁, some e) = (d₂, rest, (none : Option Error)) := h
              simp at h₂
          · simp only [decodeLoop] at h
            rw [if_neg h0, if_neg h1, if_neg h2] at h
            rcases hp : parse_lzma d r status with ⟨d₁, r₁, oe⟩
            rw [hp] at h
            rcases oe with _ | e
            · have h₂ : decodeLoop fuel d₁ r₁ = (d₂, rest, none) := h
              obtain ⟨pre₁, hpre⟩ := ih d₁ r₁ d₂ rest h₂
              obtain ⟨k, hk⟩ := parse_lzma_suffix d r status
              rw [hp] at hk
              have hk₂ : r₁ = List.drop k r := hk
              refine ⟨status :: (r.take k ++ pre₁), ?_⟩
              calc status :: r
                  = status :: (r.take k ++ r.drop k) := by rw [List.take_append_drop]
                _ = status :: (r.take k ++ (pre₁ ++ 0 :: rest)) := by rw [← hk₂, hpre]
                _ = (status :: (r.take k ++ pre₁)) ++ 0 :: rest := by simp
            · have h₂ : (d₁, r₁, some e) = (d₂, rest, (none : Option Error)) := h
              simp at h₂

/-! Claim theorems. -/

/-- Claim C1: in every iteration of the loop of `decode_stream`, the first
byte read dispatches as follows: 0x00 ends the loop successfully consuming
nothing further, 0x01 is handled as an uncompressed chunk with dictionary
reset, 0x02 as an uncompressed chunk without reset, any byte with the high
bit set (at least 128) as a compressed chunk via `parse_lzma`, and every
byte from 3 to 127 makes the iteration return a format error with the rest
of the input unconsumed. -/
theorem C1_status_dispatch :
    (∀ fuel (d : DecoderState) rest, decodeLoop (fuel + 1) d (0 :: rest) = (d, rest, none)) ∧
    (∀ fuel d rest, decodeLoop (fuel + 1) d (1 :: rest) =
      match parse_uncompressed d rest true with
      | (d₁, r₁, none) => decodeLoop fuel d₁ r₁
      | (d₁, r₁, some e) => (d₁, r₁, some e)) ∧
    (∀ fuel d rest, decodeLoop (fuel + 1) d (2 :: rest) =
      match parse_uncompressed d rest false with
      | (d₁, r₁, none) => decodeLoop fuel d₁ r₁
      | (d₁, r₁, some e) => (d₁, r₁, some e)) ∧
    (∀ fuel d rest status, 128 ≤ status → status < 256 →
      (decodeLoop (fuel + 1) d (status :: rest) =
        match parse_lzma d rest status with
        | (d₁, r₁, none) => decodeLoop fuel d₁ r₁
        | (d₁, r₁, some e) => (d₁, r₁, some e)) ∧ status &&& 0x80 ≠ 0) ∧
    (∀ fuel d rest status, 3 ≤ status → status ≤ 127 →
      decodeLoop (fuel + 1) d (status :: rest) =
        (d, rest, some (.lzmaError "LZMA2 invalid status: must be 0, 1, 2 or >= 128"))) := by
  refine ⟨fun _ _ _ => rfl, fun _ _ _ => rfl, fun _ _ _ => rfl, ?_, ?_⟩
  · intro fuel d rest status h₁ h₂
    refine ⟨?_, and128_ne_zero status h₁ h₂⟩
    have hs0 : status ≠ 0 := by omega
    have hs1 : status ≠ 1 := by omega
    have hs2 : status ≠ 2 := by omega
    simp only [decodeLoop]
    rw [if_neg hs0, if_neg hs1, if_neg hs2]
  · intro fuel d rest status h₁ h₂
    have hs0 : status ≠ 0 := by omega
    have hs1 : status ≠ 1 := by omega
    have hs2 : status ≠ 2 := by omega
    have hz : parse_lzma d rest status =
        (d, rest, some (.lzmaError "LZMA2 invalid status: must be 0, 1, 2 or >= 128")) := by
      simp [parse_lzma, and128_eq_zero status h₂]
    simp only [decodeLoop]
    rw [if_neg hs0, if_neg hs1, if_neg hs2, hz]

/-- Witness for C1: the byte 5 (between 3 and 127) is rejected with the
invalid-status format error, leaving the rest of the input unconsumed. -/
theorem C1_status_dispatch_witness :
    decodeLoop 1 new_accum [5, 9] =
      (new_accum, [9], some (.lzmaError "LZMA2 invalid status: must be 0, 1, 2 or >= 128")) :=
  C1_status_dispatch.2.2.2.2 0 new_accum [9] 5 (by decide) (by decide)

/-- Claim C2: the two-bit reset level of a compressed chunk maps to the
triple (reset_dict, reset_state, reset_props) as 0 to (false, false, false),
1 to (false, true, false), 2 to (false, true, false) and 3 to (true, true,
true); in particular two compressed status bytes that differ only in having
reset level 1 versus 2 make `parse_lzma` behave identically. -/
theorem C2_reset_level_mapping :
    resetLevelFlags 0 = some (false, false, false) ∧
    resetLevelFlags 1 = some (false, true, false) ∧
    resetLevelFlags 2 = some (false, true, false) ∧
    resetLevelFlags 3 = some (true, true, true) ∧
    (∀ (d : DecoderState) input s₁ s₂, s₁ &&& 0x80 ≠ 0 → s₂ &&& 0x80 ≠ 0 →
      (s₁ >>> 5) &&& 0x3 = 1 → (s₂ >>> 5) &&& 0x3 = 2 →
      s₁ &&& 0x1F = s₂ &&& 0x1F →
      parse_lzma d input s₁ = parse_lzma d input s₂) := by
  refine ⟨rfl, rfl, rfl, rfl, ?_⟩
  intro d input s₁ s₂ hA hB hl₁ hl₂ h5
  simp only [parse_lzma, computeUnpackedSize, hA, hB, hl₁, hl₂, h5, resetLevelFlags,
    if_false, ite_false]

/-- Witness for C2: status bytes 0xA0 (reset level 1) and 0xC0 (reset level
2) with equal low bits drive `parse_lzma` to the same result. -/
theorem C2_reset_level_mapping_witness :
    parse_lzma new_accum [] 0xA0 = parse_lzma new_accum [] 0xC0 :=
  C2_reset_level_mapping.2.2.2.2 new_accum [] 0xA0 0xC0 (by decide) (by decide)
    (by decide) (by decide) (by decide)

/-- Claim C3: the unpacked size of a compressed chunk is the five low status
bits shifted left sixteen, or-ed with the big-endian field, plus one; the
packed size is the separately read big-endian field plus one; both are
therefore at least one, and `parse_lzma` plugs exactly these values into the
chunk tail. -/
theorem C3_chunk_sizes :
    (∀ status w, computeUnpackedSize status w = (((status &&& 0x1F) <<< 16) ||| w) + 1) ∧
    (∀ w, computePackedSize w = w + 1) ∧
    (∀ status w, 1 ≤ computeUnpackedSize status w) ∧
    (∀ w, 1 ≤ computePackedSize w) ∧
    (∀ d b1 b2 b3 b4 rest status, status &&& 0x80 ≠ 0 → (status >>> 5) &&& 0x3 = 0 →
      parse_lzma d (b1 :: b2 :: b3 :: b4 :: rest) status =
        continueChunk d rest (computeUnpackedSize status ((b1 <<< 8) ||| b2))
          (computePackedSize ((b3 <<< 8) ||| b4))) :=
  ⟨fun _ _ => rfl, fun _ => rfl,
   fun _ _ => Nat.succ_le_succ (Nat.zero_le _),
   fun _ => Nat.succ_le_succ (Nat.zero_le _),
   parse_lzma_level0⟩

/-- Witness for C3: a concrete reset-level-0 compressed header is parsed
with the sizes assembled from the status bits and the big-endian fields. -/
theorem C3_chunk_sizes_witness :
    parse_lzma new_accum [7, 7, 0, 0] 129 =
      continueChunk new_accum [] (computeUnpackedSize 129 ((7 <<< 8) ||| 7))
        (computePackedSize ((0 <<< 8) ||| 0)) :=
  C3_chunk_sizes.2.2.2.2 new_accum 7 7 0 0 [] 129 (by decide) (by decide)

/-- Claim C4: an uncompressed chunk reads a big-endian size field plus one,
resets the dictionary buffer first exactly when asked (status 0x01), then
appends exactly that many raw bytes verbatim to the buffer, failing with a
format error when fewer are available; the stream 0x01 0x00 0x03 a b c d
0x00 decodes to "abcd". -/
theorem C4_uncompressed_chunks :
    (∀ (d : DecoderState) b1 b2 (rest : List Nat) rd,
      ((b1 <<< 8) ||| b2) + 1 ≤ rest.length →
      parse_uncompressed d (b1 :: b2 :: rest) rd =
        (let d₁ := if rd then { d with output := d.output.reset } else d
         ({ d₁ with output := d₁.output.append_bytes (rest.take (((b1 <<< 8) ||| b2) + 1)) },
          rest.drop (((b1 <<< 8) ||| b2) + 1), none))) ∧
    (∀ (d : DecoderState) b1 b2 (rest : List Nat) rd,
      rest.length < ((b1 <<< 8) ||| b2) + 1 →
      parse_uncompressed d (b1 :: b2 :: rest) rd =
        ((if rd then { d with output := d.output.reset } else d), rest,
         some (.lzmaError "LZMA2 expected uncompressed bytes"))) ∧
    decode_stream [1, 0, 3, 97, 98, 99, 100, 0] = .ok [97, 98, 99, 100] := by
  refine ⟨?_, ?_, rfl⟩
  · intro d b1 b2 rest rd h
    simp only [parse_uncompressed]
    rw [if_pos h]
  · intro d b1 b2 rest rd h
    simp only [parse_uncompressed]
    rw [if_neg (by omega : ¬((b1 <<< 8) ||| b2) + 1 ≤ rest.length)]

/-- Witness for C4: a one-byte uncompressed chunk body with dictionary reset
is appended verbatim. -/
theorem C4_uncompressed_chunks_witness :
    parse_uncompressed new_accum [0, 0, 7] true =
      (let d₁ := if true then { new_accum with output := new_accum.output.reset } else new_accum
       ({ d₁ with output := d₁.output.append_bytes ([7].take (((0 <<< 8) ||| 0) + 1)) },
        [(7 : Nat)].drop (((0 <<< 8) ||| 0) + 1), none)) :=
  C4_uncompressed_chunks.1 new_accum 0 0 [7] true (by decide)

/-- Claim C5: for a compressed chunk, a property byte is read if and only if
the reset level is 3 (reset_state and reset_props both set); at levels 1 and
2 the decoder is reset reusing its existing lc, lp, pb; at level 0 no reset
happens; and in every case the reset precedes the setting of the
unpacked-size target and the processing of the chunk bitstream inside
`continueChunk`. -/
theorem C5_property_resolution :
    (∀ d b1 b2 b3 b4 rest status, status &&& 0x80 ≠ 0 → (status >>> 5) &&& 0x3 = 0 →
      parse_lzma d (b1 :: b2 :: b3 :: b4 :: rest) status =
        continueChunk d rest (computeUnpackedSize status ((b1 <<< 8) ||| b2))
          (computePackedSize ((b3 <<< 8) ||| b4))) ∧
    (∀ d b1 b2 b3 b4 rest status, status &&& 0x80 ≠ 0 →
      ((status >>> 5) &&& 0x3 = 1 ∨ (status >>> 5) &&& 0x3 = 2) →
      parse_lzma d (b1 :: b2 :: b3 :: b4 :: rest) status =
        continueChunk (d.reset_state d.lc d.lp d.pb) rest
          (computeUnpackedSize status ((b1 <<< 8) ||| b2))
          (computePackedSize ((b3 <<< 8) ||| b4))) ∧
    (∀ d b1 b2 b3 b4 p rest status lc lp pb, status &&& 0x80 ≠ 0 →
      (status >>> 5) &&& 0x3 = 3 → decodeProps p = .ok (lc, lp, pb) →
      parse_lzma d (b1 :: b2 :: b3 :: b4 :: p :: rest) status =
        continueChunk (({ d with output := d.output.reset }).reset_state lc lp pb) rest
          (computeUnpackedSize status ((b1 <<< 8) ||| b2))
          (computePackedSize ((b3 <<< 8) ||| b4))) := by
  refine ⟨parse_lzma_level0, ?_, parse_lzma_level3_ok⟩
  intro d b1 b2 b3 b4 rest status h80 hl
  rcases hl with hl | hl
  · exact parse_lzma_state_reset d b1 b2 b3 b4 rest status h80 (by rw [hl]; rfl)
  · exact parse_lzma_state_reset d b1 b2 b3 b4 rest status h80 (by rw [hl]; rfl)

/-- Witness for C5: a level-1 compressed chunk resets the decoder state
reusing the existing properties, without reading a property byte. -/
theorem C5_property_resolution_witness :
    parse_lzma new_accum [0, 0, 0, 0] 0xA0 =
      continueChunk (new_accum.reset_state new_accum.lc new_accum.lp new_accum.pb) []
        (computeUnpackedSize 0xA0 ((0 <<< 8) ||| 0))
        (computePackedSize ((0 <<< 8) ||| 0)) :=
  C5_property_resolution.2.1 new_accum 0 0 0 0 [] 0xA0 (by decide) (Or.inl (by decide))

/-- Claim C6: decoding a property byte p fails with a format error exactly
when p is at least 225 or the decoded lc + lp exceeds 4; otherwise the
decoded triple is lc = p mod 9, lp = p / 9 mod 5, pb = p / 45. -/
theorem C6_property_byte_validation :
    ∀ p : Nat,
      ((∃ e, decodeProps p = .error e) ↔ (225 ≤ p ∨ 4 < p % 9 + p / 9 % 5)) ∧
      (∀ lc lp pb, decodeProps p = .ok (lc, lp, pb) →
        lc = p % 9 ∧ lp = p / 9 % 5 ∧ pb = p / 45) := by
  intro p
  constructor
  · by_cases h225 : 225 ≤ p
    · simp [decodeProps, h225]
    · by_cases hlp : 4 < p % 9 + p / 9 % 5
      · simp [decodeProps, h225, hlp]
      · simp [decodeProps, h225, hlp]
  · intro lc lp pb h
    by_cases h225 : 225 ≤ p
    · simp [decodeProps, h225] at h
    · by_cases hlp : 4 < p % 9 + p / 9 % 5
      · simp [decodeProps, h225, hlp] at h
      · simp [decodeProps, h225, hlp] at h
        obtain ⟨h1, h2, h3⟩ := h
        refine ⟨h1.symm, h2.symm, ?_⟩
        rw [← h3, Nat.div_div_eq_div_mul]

/-- Witness for C6: the property byte 100 decodes to lc 1, lp 1, pb 2. -/
theorem C6_property_byte_validation_witness :
    (1 : Nat) = 100 % 9 ∧ (1 : Nat) = 100 / 9 % 5 ∧ (2 : Nat) = 100 / 45 :=
  (C6_property_byte_validation 100).2 1 1 2 (by rfl)

lemma continueChunk_ne_unreachable (d : DecoderState) (r : List Nat) (U P : Nat) :
    (continueChunk d r U P).2.2 ≠ some Error.unreachableArm := by
  by_cases h : (r.take P).length < 5
  · rw [continueChunk_short d r U P h]
    simp
  · rw [continueChunk_ok d r U P h]
    simp

lemma parse_lzma_no_unreachable (d : DecoderState) (input : List Nat) (status : Nat)
    (h80 : status &&& 0x80 ≠ 0) :
    (parse_lzma d input status).2.2 ≠ some Error.unreachableArm := by
  have hcase : (status >>> 5) &&& 0x3 = 0 ∨ (status >>> 5) &&& 0x3 = 1 ∨
      (status >>> 5) &&& 0x3 = 2 ∨ (status >>> 5) &&& 0x3 = 3 := by
    have := resetLevel_lt_four status
    omega
  match input with
  | [] => rcases hcase with h | h | h | h <;> simp [parse_lzma, h80, h, resetLevelFlags]
  | [b1] => rcases hcase with h | h | h | h <;> simp [parse_lzma, h80, h, resetLevelFlags]
  | [b1, b2] => rcases hcase with h | h | h | h <;> simp [parse_lzma, h80, h, resetLevelFlags]
  | [b1, b2, b3] =>
    rcases hcase with h | h | h | h <;> simp [parse_lzma, h80, h, resetLevelFlags]
  | b1 :: b2 :: b3 :: b4 :: rest =>
    rcases hcase with h | h | h | h
    · rw [parse_lzma_level0 d b1 b2 b3 b4 rest status h80 h]
      exact continueChunk_ne_unreachable _ _ _ _
    · rw [parse_lzma_state_reset d b1 b2 b3 b4 rest status h80 (by rw [h]; rfl)]
      exact continueChunk_ne_unreachable _ _ _ _
    · rw [parse_lzma_state_reset d b1 b2 b3 b4 rest status h80 (by rw [h]; rfl)]
      exact continueChunk_ne_unreachable _ _ _ _
    · match rest with
      | [] => simp [parse_lzma, h80, h, resetLevelFlags]
      | p :: rest₂ =>
        match hp : decodeProps p with
        | .error e =>
          rw [parse_lzma_level3_err d b1 b2 b3 b4 p rest₂ status e h80 h hp]
          obtain ⟨msg, hmsg⟩ := decodeProps_error_msg p e hp
          simp [hmsg]
        | .ok (lc, lp, pb) =>
          rw [parse_lzma_level3_ok d b1 b2 b3 b4 p rest₂ status lc lp pb h80 h hp]
          exact continueChunk_ne_unreachable _ _ _ _

/-- Claim C7: decoding the single terminator byte 0x00 succeeds with empty
output; in general `decode_stream` succeeds only when the loop reaches a
0x00 status byte, and the buffer flush `finish` happens exactly once, on
that successful termination — an error never produces output. -/
theorem C7_termination_and_finish :
    decode_stream [0] = .ok [] ∧
    (∀ input out, decode_stream input = .ok out →
      ∃ d rest pre, decodeLoop (input.length + 1) new_accum input = (d, rest, none) ∧
        input = pre ++ 0 :: rest ∧ out = d.output.finish) := by
  refine ⟨rfl, ?_⟩
  intro input out h
  unfold decode_stream at h
  rcases hl : decodeLoop (input.length + 1) new_accum input with ⟨d, r, oe⟩
  rw [hl] at h
  rcases oe with _ | e
  · have hout : out = d.output.finish := by
      have h₂ : Except.ok (ε := Error) d.output.finish = .ok out := h
      exact (Except.ok.inj h₂).symm
    obtain ⟨pre, hpre⟩ := decodeLoop_none_split (input.length + 1) new_accum input d r hl
    exact ⟨d, r, pre, rfl, hpre, hout⟩
  · exact absurd h (by simp)

/-- Witness for C7: the terminator-only stream exercises the success case,
whose output is the single final flush of the buffer. -/
theorem C7_termination_and_finish_witness :
    ∃ d rest pre, decodeLoop (([0] : List Nat).length + 1) new_accum [0] = (d, rest, none) ∧
      ([0] : List Nat) = pre ++ 0 :: rest ∧ ([] : List Nat) = d.output.finish :=
  C7_termination_and_finish.2 [0] [] (by rfl)

/-- Claim C8: a compressed chunk caps the input to exactly the packed size
before constructing the range decoder, whose construction consumes five
initialisation bytes from that bounded view; when the view holds fewer than
five bytes, `parse_lzma` fails with the format error "LZMA stream too
short" before any symbol is decoded (the chunk processor is never invoked
and the packed bytes are not consumed). -/
theorem C8_bounded_rangecoder_init :
    (∀ d (r : List Nat) U P, (r.take P).length < 5 →
      continueChunk d r U P =
        (d.set_unpacked_size (some U), r, some (.lzmaError "LZMA stream too short"))) ∧
    (∀ d (r : List Nat) U P, ¬(r.take P).length < 5 →
      continueChunk d r U P =
        ((d.set_unpacked_size (some U)).process ((r.take P).drop 5), r.drop P, none)) ∧
    (∀ d b1 b2 b3 b4 rest status, status &&& 0x80 ≠ 0 → (status >>> 5) &&& 0x3 = 0 →
      (rest.take (computePackedSize ((b3 <<< 8) ||| b4))).length < 5 →
      parse_lzma d (b1 :: b2 :: b3 :: b4 :: rest) status =
        (d.set_unpacked_size (some (computeUnpackedSize status ((b1 <<< 8) ||| b2))), rest,
         some (.lzmaError "LZMA stream too short"))) := by
  refine ⟨continueChunk_short, continueChunk_ok, ?_⟩
  intro d b1 b2 b3 b4 rest status h80 hl hlen
  rw [parse_lzma_level0 d b1 b2 b3 b4 rest status h80 hl,
      continueChunk_short _ _ _ _ hlen]

/-- Witness for C8: a bounded view of three bytes is too short for the five
range-decoder initialisation bytes. -/
theorem C8_bounded_rangecoder_init_witness :
    continueChunk new_accum [1, 2, 3] 6 4 =
      (new_accum.set_unpacked_size (some 6), [1, 2, 3],
       some (.lzmaError "LZMA stream too short")) :=
  C8_bounded_rangecoder_init.1 new_accum [1, 2, 3] 6 4 (by decide)

/-- Claim C9: when the property byte of a reset-level-3 compressed chunk is
invalid, `parse_lzma` returns the error before calling reset_state or
set_unpacked_size and before reading any payload byte: the returned decoder
differs from the input decoder only by the already-performed dictionary
reset, and the stream position is just past the property byte. -/
theorem C9_invalid_props_atomicity :
    ∀ d b1 b2 b3 b4 p rest status e, status &&& 0x80 ≠ 0 → (status >>> 5) &&& 0x3 = 3 →
      decodeProps p = .error e →
      parse_lzma d (b1 :: b2 :: b3 :: b4 :: p :: rest) status =
        ({ d with output := d.output.reset }, rest, some e) :=
  fun d b1 b2 b3 b4 p rest status e h80 hl hp =>
    parse_lzma_level3_err d b1 b2 b3 b4 p rest status e h80 hl hp

/-- Witness for C9: the out-of-range property byte 225 aborts a level-3
chunk leaving the decoder unchanged apart from the dictionary reset. -/
theorem C9_invalid_props_atomicity_witness :
    parse_lzma new_accum [0, 0, 0, 0, 225] 0xE0 =
      ({ new_accum with output := new_accum.output.reset }, [],
       some (.lzmaError "LZMA2 invalid properties: must be < 225")) :=
  C9_invalid_props_atomicity new_accum 0 0 0 0 225 [] 0xE0
    (.lzmaError "LZMA2 invalid properties: must be < 225") (by decide) (by decide) (by rfl)

/-- Claim C10: the reset-level match in `parse_lzma` is total: for every
status byte the scrutinee is below 4, the flag table returns a value, and
the `unreachable!()` fallback arm is never executed. -/
theorem C10_reset_level_match_total :
    ∀ status : Nat, (status >>> 5) &&& 0x3 < 4 ∧
      resetLevelFlags ((status >>> 5) &&& 0x3) ≠ none ∧
      ∀ (d : DecoderState) input,
        (parse_lzma d input status).2.2 ≠ some Error.unreachableArm := by
  intro status
  have h4 := resetLevel_lt_four status
  refine ⟨h4, ?_, ?_⟩
  · have hcase : (status >>> 5) &&& 0x3 = 0 ∨ (status >>> 5) &&& 0x3 = 1 ∨
        (status >>> 5) &&& 0x3 = 2 ∨ (status >>> 5) &&& 0x3 = 3 := by omega
    rcases hcase with h | h | h | h <;> rw [h] <;> simp [resetLevelFlags]
  · intro d input
    by_cases h80 : status &&& 0x80 = 0
    · simp [parse_lzma, h80]
    · exact parse_lzma_no_unreachable d input status h80

/-- Witness for C10: at the all-ones status byte the flag table is defined. -/
theorem C10_reset_level_match_total_witness :
    resetLevelFlags ((0xFF >>> 5) &&& 0x3) ≠ none :=
  (C10_reset_level_match_total 0xFF).2.1
